import Mathlib

/-!
# Shallow embedding of the `ai_coding_agent` core

This file embeds, in Lean 4, the parts of the repository that the verified
claims are about:

* the data model (`Message`, `ToolCall`, `ToolResult`, `ExecutionResult`,
  `WorkflowResult`, `Session`) from `providers/base.py`, `tools/registry.py`,
  `orchestrator/async_executor.py` and `agent/session.py`;
* the session store and its history compaction
  (`SessionManager.compact_session`, `SessionManager.delete`);
* the single-agent turn executor (`CodingAgent.process_message`,
  `CodingAgent._execute_tools_sync`);
* the multi-agent orchestrator (`AsyncOrchestrator.execute_sequential`,
  `execute_parallel`, `execute_continuous`).

Conventions of the embedding:

* Python `async` functions are strictly sequential here; the only
  concurrency in the modelled code paths is `asyncio.gather`, which returns
  results in argument order over independent computations, so it is embedded
  as an order-preserving `List.map`.
* Python exceptions are `Except String`; external collaborators (providers,
  tools) are function parameters.
* Python dictionaries that the modelled code reads and writes are
  association lists (`List (String × kv)`), insertion overwriting.
* Wall-clock and poll timeouts of the continuous orchestrator are modelled
  with a fuel parameter; fuel exhaustion plays the role of the outer
  wall-clock timeout, while the "queue empty after a poll" break is the
  `[]` case of the queue.
* Run functions additionally return an observation trace (provider calls,
  attempted tool invocations, counter values) so that statements such as
  "without a provider call" are expressible; the traces are write-only and
  never influence the control flow copied from the source.
-/

/-- `Message` dataclass from `providers/base.py`.  `tool_calls` is the list of
plain dicts the agent stores on assistant messages (`id`/`name`/`arguments`);
arguments are modelled as string-to-string association lists. -/
structure Message where
  role : String
  content : String
  name : Option String := none
  tool_calls : Option (List (String × String × List (String × String))) := none
  tool_call_id : Option String := none
  deriving Repr, DecidableEq

/-- `ToolCall` dataclass from `providers/base.py`. -/
structure ToolCall where
  id : String
  name : String
  arguments : List (String × String)
  deriving Repr, DecidableEq

/-- `CompletionResponse` from `providers/base.py`, restricted to the fields
the turn executor reads (`content`, `tool_calls`). -/
structure CompletionResponse where
  content : String
  tool_calls : List ToolCall := []
  deriving Repr, DecidableEq

/-- `ToolResult` dataclass from `tools/registry.py` (metadata dict dropped:
the embedded code paths never read it). -/
structure ToolResult where
  success : Bool
  output : String
  error : Option String := none
  deriving Repr, DecidableEq

/-- Values stored in a `Session.context` dict (`agent/session.py` stores a
timestamp string and a message count there). -/
inductive CtxVal where
  | str (s : String)
  | nat (n : Nat)
  deriving Repr, DecidableEq

/-- `SessionMetadata` dataclass from `agent/session.py`. -/
structure SessionMetadata where
  id : String
  created_at : String
  updated_at : String
  provider : String
  model : String
  title : String := "Untitled Session"
  message_count : Nat := 0
  total_tokens : Nat := 0
  deriving Repr, DecidableEq

/-- `Session` dataclass from `agent/session.py`. -/
structure Session where
  metadata : SessionMetadata
  messages : List Message := []
  context : List (String × CtxVal) := []
  deriving Repr, DecidableEq

/-- Overwrite-or-insert assignment `d[k] = v` on a dict modelled as an
association list. -/
def ctxSet (ctx : List (String × CtxVal)) (k : String) (v : CtxVal) :
    List (String × CtxVal) :=
  if ctx.any (fun p => p.1 == k) then
    ctx.map (fun p => if p.1 == k then (k, v) else p)
  else
    ctx ++ [(k, v)]

namespace SessionManager

/-- The per-message fold of `SessionManager.compact_session`
(`agent/session.py`, lines 238-244), written as structural recursion whose
pair of results are the `new_messages` / `removed_messages` accumulators of
the source, in order.  `L` is `len(messages)` (fixed before the loop) and
`removed` is `len(removed_messages)` so far; the guard
`len(messages) - len(removed_messages) - 1 < keep_last_n` is evaluated over
`Int` exactly as Python evaluates it over unbounded integers. -/
def compactLoop (L keep_last_n : Nat) (keep_system : Bool) :
    List Message → Nat → List Message × List Message
  | [], _ => ([], [])
  | m :: rest, removed =>
    if m.role == "system" && keep_system then
      let p := compactLoop L keep_last_n keep_system rest removed
      (m :: p.1, p.2)
    else if (L : Int) - (removed : Int) - 1 < (keep_last_n : Int) then
      let p := compactLoop L keep_last_n keep_system rest removed
      (m :: p.1, p.2)
    else
      let p := compactLoop L keep_last_n keep_system rest (removed + 1)
      (p.1, m :: p.2)

/-- One-line preview of a removed message for the synthesized summary
("User asked: …" / "Assistant: …", content truncated to 100 characters);
messages of other roles contribute no preview (source lines 249-253). -/
def summaryPart (m : Message) : Option String :=
  if m.role == "user" then
    some ("User asked: " ++ m.content.take 100 ++ "...")
  else if m.role == "assistant" then
    some ("Assistant: " ++ m.content.take 100 ++ "...")
  else
    none

/-- `SessionManager.compact_session` (`agent/session.py`, lines 206-269).
`now` stands for `datetime.now().isoformat()`. -/
def compact_session (session : Session) (keep_system : Bool := true)
    (keep_last_n : Nat := 10) (summarize : Bool := true)
    (now : String := "") : Session :=
  let messages := session.messages
  if messages.length ≤ keep_last_n then
    session
  else
    let p := compactLoop messages.length keep_last_n keep_system messages 0
    let new_messages := p.1
    let removed_messages := p.2
    let new_messages :=
      if summarize && !removed_messages.isEmpty then
        let summary_parts := removed_messages.filterMap summaryPart
        let summary_msg : Message :=
          { role := "system"
            content := "[Previous conversation summary (" ++
              toString removed_messages.length ++ " messages)]\n" ++
              String.intercalate "\n" (summary_parts.take 5) }
        let insert_idx :=
          match new_messages with
          | m :: _ => if m.role == "system" then 1 else 0
          | [] => 0
        new_messages.insertIdx insert_idx summary_msg
      else new_messages
    { session with
      messages := new_messages
      context :=
        ctxSet (ctxSet session.context "compacted_at" (.str now))
          "removed_messages" (.nat removed_messages.length) }

/-- State of a `SessionManager` as far as `delete` observes it: the ids that
have a session file on disk, and the keys of the in-memory `_sessions` cache
(`agent/session.py`, lines 85-177).  The cached `Session` values are
irrelevant to `delete`, so only the keys are kept. -/
structure Store where
  disk : List String
  cache : List String
  deriving Repr, DecidableEq

/-- `SessionManager.delete` (`agent/session.py`, lines 166-177): unlink the
session file when it exists, then remove the cache entry and return `True`
only when the id was cached. -/
def delete (store : Store) (session_id : String) : Bool × Store :=
  let store :=
    if store.disk.contains session_id then
      { store with disk := store.disk.filter (fun i => i ≠ session_id) }
    else store
  if store.cache.contains session_id then
    (true, { store with cache := store.cache.filter (fun i => i ≠ session_id) })
  else
    (false, store)

end SessionManager

/-! ## Multi-agent orchestrator (`orchestrator/async_executor.py`) -/

/-- `AgentRole` dataclass from `orchestrator/async_executor.py`.  The bound
provider is embedded as a function from the single user prompt the
orchestrator sends (`provider.complete([Message(role="user", content=prompt)])`)
to either the completion content or the message of a raised exception. -/
structure AgentRole where
  name : String
  provider : String → Except String String
  role : String
  prompt_template : String := "{task}"
  next_agent : Option String := none

/-- `ExecutionResult` dataclass from `orchestrator/async_executor.py`
(metadata dict kept as an association list; it stays empty in every embedded
code path, as in the source). -/
structure ExecutionResult where
  agent_name : String
  role : String
  success : Bool
  content : String
  error : Option String := none
  iteration : Nat := 0
  metadata : List (String × String) := []
  deriving Repr, DecidableEq

/-- `WorkflowResult` dataclass from `orchestrator/async_executor.py`. -/
structure WorkflowResult where
  success : Bool
  results : List ExecutionResult := []
  final_output : String := ""
  total_iterations : Nat := 0
  deriving Repr, DecidableEq

/-- The agent mapping `self.agents` (a Python dict, iteration order =
insertion order), as an association list. -/
abbrev Agents := List (String × AgentRole)

/-- Dict lookup `self.agents[name]` / `name in self.agents`. -/
def lookupAgent (agents : Agents) (name : String) : Option AgentRole :=
  (List.find? (fun p => p.1 == name) agents).map (fun p => p.2)

/-- Leftmost, non-overlapping replacement of the pattern `pat` by `sub` in a
character list; the fuel argument (instantiated with the haystack length,
which each step consumes at least one character of) only makes the recursion
structural. -/
def replaceChars (pat sub : List Char) : Nat → List Char → List Char
  | _, [] => []
  | 0, s => s
  | fuel + 1, c :: rest =>
    if pat.isPrefixOf (c :: rest) then
      sub ++ replaceChars pat sub fuel (rest.drop (pat.length - 1))
    else
      c :: replaceChars pat sub fuel rest

/-- String-level wrapper of `replaceChars`. -/
def replaceStr (s pat sub : String) : String :=
  ⟨replaceChars pat.data sub.data s.data.length s.data⟩

/-- `str.format` substitution for the fixed placeholders the orchestrator's
templates use (`{task}`, `{previous_output}`, `{iteration}`); templates are
assumed to contain no other placeholder and no brace escapes (the source
would raise `KeyError` otherwise, and every template in the repository uses
only these). -/
def formatTemplate (template task previous_output iteration : String) : String :=
  replaceStr
    (replaceStr (replaceStr template "{task}" task)
      "{previous_output}" previous_output)
    "{iteration}" iteration

namespace AsyncOrchestrator

/-- String-valued shared context `ctx` of `execute_sequential` (the source's
`context or {}` dict). -/
abbrev SeqCtx := List (String × String)

/-- `d.get(k, default)` on the sequential context. -/
def SeqCtx.get (ctx : SeqCtx) (k default : String) : String :=
  match List.find? (fun p => p.1 == k) ctx with
  | some p => p.2
  | none => default

/-- `d[k] = v` on the sequential context. -/
def SeqCtx.set (ctx : SeqCtx) (k v : String) : SeqCtx :=
  if ctx.any (fun p => p.1 == k) then
    ctx.map (fun p => if p.1 == k then (k, v) else p)
  else
    ctx ++ [(k, v)]

/-- A provider call made by the orchestrator, recorded as
(agent name, prompt sent).  The source does not keep such a log; it is
write-only instrumentation of the embedding, used to state "without a
provider call". -/
abbrev CallLog := List (String × String)

/-- The `for i, agent_name in enumerate(agent_order)` loop of
`AsyncOrchestrator.execute_sequential` (`orchestrator/async_executor.py`,
lines 101-151), as structural recursion on the remaining order.  Its pair of
results are the source's `results` list and the embedding's provider-call
log.

The prompt is built by
`agent.prompt_template.format(task=current_input,
previous_output=ctx.get("previous_output", ""), **ctx)`: when `ctx` itself
holds a `previous_output` (or `task`) key — which the loop guarantees after
the first successful agent — Python receives the same keyword argument twice
and raises `TypeError` before the provider is called; that uncaught
exception propagates out of `execute_sequential`, hence the `Except`
result. -/
def seqLoop (agents : Agents) :
    Nat → List String → String → SeqCtx →
      Except String (List ExecutionResult × CallLog)
  | _, [], _, _ => .ok ([], [])
  | i, agent_name :: rest, current_input, ctx =>
    match lookupAgent agents agent_name with
    | none =>
      (seqLoop agents (i + 1) rest current_input ctx).map
        (fun p =>
          ({ agent_name := agent_name, role := "unknown", success := false,
             content := "", error := some ("Agent not found: " ++ agent_name) }
             :: p.1, p.2))
    | some agent =>
      if ctx.any (fun p => p.1 == "previous_output" || p.1 == "task") then
        .error "TypeError: got multiple values for keyword argument"
      else
        let prompt := formatTemplate agent.prompt_template current_input
          (SeqCtx.get ctx "previous_output" "") ""
        match agent.provider prompt with
        | .ok content =>
          (seqLoop agents (i + 1) rest content
              (SeqCtx.set ctx "previous_output" content)).map
            (fun p =>
              ({ agent_name := agent_name, role := agent.role, success := true,
                 content := content, iteration := i } :: p.1,
               (agent_name, prompt) :: p.2))
        | .error e =>
          .ok ([{ agent_name := agent_name, role := agent.role,
                  success := false, content := "", error := some e }],
               [(agent_name, prompt)])

/-- Assemble the `WorkflowResult` returned by `execute_sequential`
(source lines 152-157). -/
def seqResult (results : List ExecutionResult) : WorkflowResult :=
  { success := results.all (fun r => r.success)
    results := results
    final_output :=
      match results.getLast? with
      | some r => if r.success then r.content else ""
      | none => ""
    total_iterations := results.length }

/-- `AsyncOrchestrator.execute_sequential` (`orchestrator/async_executor.py`,
lines 84-157), with the embedding's provider-call log alongside the result. -/
def execute_sequential (agents : Agents) (task : String)
    (agent_order : List String) (context : Option SeqCtx := none) :
    Except String (WorkflowResult × CallLog) :=
  (seqLoop agents 0 agent_order task (context.getD [])).map
    (fun p => (seqResult p.1, p.2))

/-- The inner coroutine `run_agent` of `AsyncOrchestrator.execute_parallel`
(source lines 176-206). -/
def runAgent (agents : Agents) (task : String) (name : String) :
    ExecutionResult :=
  match lookupAgent agents name with
  | none =>
    { agent_name := name, role := "unknown", success := false, content := "",
      error := some ("Agent not found: " ++ name) }
  | some agent =>
    let prompt := formatTemplate agent.prompt_template task "" ""
    match agent.provider prompt with
    | .ok content =>
      { agent_name := name, role := agent.role, success := true,
        content := content }
    | .error e =>
      { agent_name := name, role := agent.role, success := false,
        content := "", error := some e }

/-- Merge step of `execute_parallel` (source lines 213-224). -/
def mergeResults (merge_strategy : String) (successful : List ExecutionResult) :
    String :=
  if merge_strategy == "combine" then
    String.intercalate "\n\n---\n\n"
      (successful.map (fun r =>
        "**" ++ r.agent_name ++ " (" ++ r.role ++ "):**\n" ++ r.content))
  else if merge_strategy == "best" then
    match successful.argmax (fun r => r.content.length) with
    | some r => r.content
    | none => ""
  else
    match successful with
    | r :: _ => r.content
    | [] => ""

/-- `AsyncOrchestrator.execute_parallel` (`orchestrator/async_executor.py`,
lines 159-231).  `asyncio.gather` awaits independent coroutines — one per
input name, touching no shared state — and returns their results in argument
order, so it is embedded as `List.map`. -/
def execute_parallel (agents : Agents) (task : String)
    (agent_names : List String) (merge_strategy : String := "combine") :
    WorkflowResult :=
  let results := agent_names.map (runAgent agents task)
  let successful := results.filter (fun r => r.success)
  { success := successful.length > 0
    results := results
    final_output := mergeResults merge_strategy successful
    total_iterations := 1 }

end AsyncOrchestrator

namespace AsyncOrchestrator

/-- A work item of the continuous-mode queue:
`{"task": ..., "target_agent": ..., "iteration": ...}` (source lines
354-358). -/
structure QueueItem where
  task : String
  target_agent : String
  iteration : Nat
  deriving Repr, DecidableEq

/-- The `process_queue` consumer loop of
`AsyncOrchestrator.execute_continuous` (`orchestrator/async_executor.py`,
lines 360-415), with the FIFO `asyncio.Queue` as a list (dequeue at the
head, enqueue at the tail).

Since every embedded provider call returns immediately, `task_queue.get`
never waits while the queue is non-empty, and its 5-second poll timeout
fires exactly when the queue is empty — the `[]` case, which is the
source's `break`.  `fuel` bounds the number of loop passes and stands for
the outer wall-clock `timeout`: the Bool result is `true` when the loop
ended on its own (queue drained or stop condition matched) and `false` when
fuel ran out, in which case — as with `asyncio.wait_for`'s `TimeoutError`,
which the source swallows — the results gathered so far are still
returned. -/
def processQueue (agents : Agents) (max_iterations : Nat)
    (stop_condition : ExecutionResult → Bool) :
    Nat → List QueueItem → List ExecutionResult →
      List ExecutionResult × Bool
  | 0, _, results => (results, false)
  | _ + 1, [], results => (results, true)
  | fuel + 1, item :: queue, results =>
    match lookupAgent agents item.target_agent with
    | none => processQueue agents max_iterations stop_condition fuel queue results
    | some agent =>
      let prompt := formatTemplate agent.prompt_template item.task ""
        (toString item.iteration)
      match agent.provider prompt with
      | .ok content =>
        let result : ExecutionResult :=
          { agent_name := item.target_agent, role := agent.role,
            success := true, content := content, iteration := item.iteration }
        let results := results ++ [result]
        if stop_condition result then
          (results, true)
        else
          match agent.next_agent with
          | some nxt =>
            if item.iteration < max_iterations then
              processQueue agents max_iterations stop_condition fuel
                (queue ++ [{ task := content, target_agent := nxt,
                             iteration := item.iteration + 1 }]) results
            else
              processQueue agents max_iterations stop_condition fuel queue
                results
          | none =>
            processQueue agents max_iterations stop_condition fuel queue
              results
      | .error e =>
        processQueue agents max_iterations stop_condition fuel queue
          (results ++ [{ agent_name := item.target_agent, role := agent.role,
                         success := false, content := "",
                         error := some e }])

/-- Seed-agent selection of `execute_continuous` (source lines 344-351):
the first agent whose role is `"implement"`, else the first configured
agent (`list(self.agents.keys())[0]`, which raises on an empty mapping —
hence the `Option`). -/
def firstAgent (agents : Agents) : Option String :=
  match List.find? (fun p => p.2.role == "implement") agents with
  | some p => some p.1
  | none =>
    match agents with
    | p :: _ => some p.1
    | [] => none

/-- `AsyncOrchestrator.execute_continuous` (`orchestrator/async_executor.py`,
lines 322-427).  `max_iterations` is the orchestrator's constructor field;
`fuel` stands for the wall-clock timeout (see `processQueue`).  The Bool
records whether the consumer loop completed before the timeout. -/
def execute_continuous (agents : Agents) (max_iterations : Nat)
    (initial_task : String) (stop_condition : ExecutionResult → Bool)
    (fuel : Nat) : Option (WorkflowResult × Bool) :=
  (firstAgent agents).map (fun first =>
    let p := processQueue agents max_iterations stop_condition fuel
      [{ task := initial_task, target_agent := first, iteration := 0 }] []
    let results := p.1
    ({ success := results.any (fun r => r.success)
       results := results
       final_output :=
         match results.getLast? with
         | some r => if r.success then r.content else ""
         | none => ""
       total_iterations := results.length }, p.2))

end AsyncOrchestrator

/-! ## Single-agent turn executor (`agent/core.py`) -/

/-- The default `AgentConfig.system_prompt` of `agent/core.py`. -/
def defaultSystemPrompt : String :=
  "You are an expert AI coding assistant. You help users with software development tasks.\n\nYou have access to tools for:\n- Reading and writing files\n- Editing code with diffs and replacements\n- Running shell commands\n- Searching files and code\n\nWhen helping users:\n1. Understand the task clearly before acting\n2. Use tools to inspect the codebase when needed\n3. Make precise, targeted changes\n4. Explain what you're doing and why\n5. Verify your changes when possible\n\nBe concise and helpful. Focus on solving the user's problem efficiently."

/-- `AgentConfig` dataclass from `agent/core.py` (the `temperature` float is
only forwarded to the provider and is absorbed into the provider function;
`confirm_dangerous_tools` only selects the callback forwarded to
`tools.execute` and is likewise absorbed into the tool function). -/
structure AgentConfig where
  system_prompt : String := defaultSystemPrompt
  max_iterations : Nat := 20
  max_tool_calls_per_turn : Nat := 10
  deriving Repr, DecidableEq

/-- `AgentState` dataclass from `agent/core.py`. -/
structure AgentState where
  messages : List Message := []
  iteration : Nat := 0
  tool_calls_this_turn : Nat := 0
  is_complete : Bool := false
  last_response : Option String := none
  deriving Repr, DecidableEq

/-- The bound provider of the agent: `provider.complete(messages, tools, …)`,
embedded as a function of the message history.  A provider exception is not
modelled: the source catches nothing around it, so a fault merely truncates
the run, and every per-state property proved below is stated over all
intermediate states through the trace. -/
abbrev Provider := List Message → CompletionResponse

/-- The Tool Capability `self.tools.execute(name, arguments, confirm_callback)`
(registry lookup, confirmation flow and exception-to-ToolResult conversion
all happen inside it and always deliver a `ToolResult`). -/
abbrev ToolExec := String → List (String × String) → ToolResult

/-- Write-only observation trace of one task (instrumentation of the
embedding, not source state): how many completions were requested, every
attempted tool invocation, the value of `tool_calls_this_turn` after each
increment, and the per-call status strings the source yields/returns. -/
structure RunTrace where
  providerCalls : Nat := 0
  attempts : List ToolCall := []
  counterTrace : List Nat := []
  outputs : List String := []
  deriving Repr, DecidableEq

namespace CodingAgent

/-- `CodingAgent._init_conversation` (`agent/core.py`, lines 84-88). -/
def init_conversation (cfg : AgentConfig) (st : AgentState) : AgentState :=
  { st with messages := [{ role := "system", content := cfg.system_prompt }] }

/-- Agent construction (`__init__`, lines 68-82): a fresh `AgentState`
followed by `_init_conversation`. -/
def newAgent (cfg : AgentConfig) : AgentState :=
  init_conversation cfg {}

/-- `CodingAgent.reset` (lines 259-262): a fresh `AgentState` followed by
`_init_conversation`.  The previous state is discarded. -/
def reset (cfg : AgentConfig) (_st : AgentState) : AgentState :=
  init_conversation cfg {}

/-- `CodingAgent.add_context` (lines 268-270). -/
def add_context (st : AgentState) (content : String)
    (role : String := "system") : AgentState :=
  { st with messages := st.messages ++ [{ role := role, content := content }] }

/-- `CodingAgent._execute_tools_sync` (`agent/core.py`, lines 230-257), as
structural recursion on the remaining tool calls.  Returns the updated
state, the updated trace, and the source's `results` status list (joined
with " | " by the caller).  The cap guard
`tool_calls_this_turn >= max_tool_calls_per_turn` appends the
"[Max tool calls reached]" marker and breaks. -/
def executeToolsSync (tools : ToolExec) (cfg : AgentConfig) :
    AgentState → RunTrace → List ToolCall →
      AgentState × RunTrace × List String
  | st, tr, [] => (st, tr, [])
  | st, tr, tc :: rest =>
    if cfg.max_tool_calls_per_turn ≤ st.tool_calls_this_turn then
      (st, tr, ["[Max tool calls reached]"])
    else
      let st := { st with tool_calls_this_turn := st.tool_calls_this_turn + 1 }
      let tr := { tr with
        attempts := tr.attempts ++ [tc]
        counterTrace := tr.counterTrace ++ [st.tool_calls_this_turn] }
      let result := tools tc.name tc.arguments
      let st := { st with
        messages := st.messages ++ [{
          role := "tool"
          content :=
            if result.success then result.output
            else "Error: " ++ result.error.getD "None"
          name := some tc.name
          tool_call_id := some tc.id }] }
      let status := (if result.success then "✅ " else "❌ ") ++ tc.name
      let p := executeToolsSync tools cfg st tr rest
      (p.1, p.2.1, status :: p.2.2)

/-- `CodingAgent._process_turn` (`agent/core.py`, lines 171-198): one
completion request, the assistant message append, and — when tool calls were
returned — their sequential execution. -/
def processTurn (provider : Provider) (tools : ToolExec) (cfg : AgentConfig)
    (st : AgentState) (tr : RunTrace) : AgentState × RunTrace × String :=
  let response := provider st.messages
  let tr := { tr with providerCalls := tr.providerCalls + 1 }
  let st := { st with
    messages := st.messages ++ [{
      role := "assistant"
      content := response.content
      tool_calls :=
        if response.tool_calls.isEmpty then none
        else some (response.tool_calls.map
          (fun tc => (tc.id, tc.name, tc.arguments))) }] }
  if response.tool_calls.isEmpty then
    ({ st with is_complete := true, last_response := some response.content },
     tr, response.content)
  else
    let p := executeToolsSync tools cfg st tr response.tool_calls
    (p.1, { p.2.1 with outputs := p.2.1.outputs ++ p.2.2 },
     String.intercalate " | " p.2.2)

/-- The `while not is_complete and iteration < max_iterations` loop of
`CodingAgent.process_message` (`agent/core.py`, lines 115-128).  `fuel` only
bounds the recursion: each pass increments `iteration` by one and nothing
else touches it, so with fuel `max_iterations + 1` the fuel never runs out
before the loop condition turns false. -/
def processLoop (provider : Provider) (tools : ToolExec) (cfg : AgentConfig) :
    Nat → AgentState → RunTrace → AgentState × RunTrace
  | 0, st, tr => (st, tr)
  | fuel + 1, st, tr =>
    if !st.is_complete && st.iteration < cfg.max_iterations then
      let st := { st with iteration := st.iteration + 1 }
      let p := processTurn provider tools cfg st tr
      processLoop provider tools cfg fuel p.1 p.2.1
    else
      (st, tr)

/-- `CodingAgent.process_message` (`agent/core.py`, lines 94-128),
non-streaming variant: append the user message, zero the per-task counters,
then run the turn loop. -/
def process_message (provider : Provider) (tools : ToolExec)
    (cfg : AgentConfig) (st : AgentState) (user_message : String) :
    AgentState × RunTrace :=
  let st := { st with
    messages := st.messages ++ [{ role := "user", content := user_message }]
    iteration := 0
    tool_calls_this_turn := 0
    is_complete := false }
  processLoop provider tools cfg (cfg.max_iterations + 1) st {}

end CodingAgent

/-! ## Spec-side helpers and concrete scenario instances -/

/-- Keep every message except the `d` earliest non-system ones, preserving
order.  `dropEarliestNonSystem ((#non-system) - k)` is "all system messages
plus the most recent `k` non-system messages" — the compaction retention the
spec describes — while `compactLoop` will be shown to compute
`dropEarliestNonSystem ((#messages) - k)`. -/
def dropEarliestNonSystem : Nat → List Message → List Message
  | _, [] => []
  | d, m :: rest =>
    if m.role == "system" then m :: dropEarliestNonSystem d rest
    else
      match d with
      | 0 => m :: dropEarliestNonSystem 0 rest
      | d' + 1 => dropEarliestNonSystem d' rest

/-- The retained history exactly as the spec sentence words it: all system
messages plus the most recent `keepLastN` non-system messages, in their
original order (equivalently: drop the earliest
`#non-system − keepLastN` non-system messages). -/
def specRetainedHistory (keepLastN : Nat) (msgs : List Message) :
    List Message :=
  dropEarliestNonSystem
    ((msgs.filter (fun m => !(m.role == "system"))).length - keepLastN) msgs

/-- Whether a message list starts with a system message. -/
def firstIsSystem : List Message → Bool
  | m :: _ => m.role == "system"
  | [] => false

/-- "The last successful agent's content": content of the last
`ExecutionResult` with `success = true`. -/
def lastSuccessContent (rs : List ExecutionResult) : Option String :=
  ((rs.filter (fun r => r.success)).getLast?).map (fun r => r.content)

/-- C3/C5/C6 instance: a session holding one system message and three user
messages. -/
def msgs0 : List Message :=
  [{ role := "system", content := "S" }, { role := "user", content := "u1" },
   { role := "user", content := "u2" }, { role := "user", content := "u3" }]

/-- Session wrapping `msgs0`. -/
def sess0 : Session :=
  { metadata := { id := "i", created_at := "c", updated_at := "c",
                  provider := "p", model := "m" }
    messages := msgs0 }

/-- C10 instance: a store whose only session exists on disk but was never
loaded into the cache. -/
def store0 : SessionManager.Store := { disk := ["s1"], cache := [] }

/-- C1/C4 instance: a provider that always requests three tool calls. -/
def provider1 : Provider := fun _ =>
  { content := "c"
    tool_calls :=
      [{ id := "1", name := "t1", arguments := [] },
       { id := "2", name := "t2", arguments := [] },
       { id := "3", name := "t3", arguments := [] }] }

/-- C1/C4 instance: tools that always succeed. -/
def tools1 : ToolExec := fun _ _ => { success := true, output := "ok" }

/-- C1/C4 instance: `max_tool_calls_per_turn = 2`, default
`max_iterations = 20`. -/
def cfg1 : AgentConfig :=
  { system_prompt := "S", max_iterations := 20, max_tool_calls_per_turn := 2 }

/-- C1/C4 instance: one full task against `provider1`/`tools1`/`cfg1`. -/
def run1 : AgentState × RunTrace :=
  CodingAgent.process_message provider1 tools1 cfg1
    (CodingAgent.newAgent cfg1) "hi"

/-- C2/C7 instance: an agent mapping containing only agent `A`, whose
provider always answers `"done"`. -/
def agentsA : Agents :=
  [("A", { name := "A", provider := fun _ => .ok "done",
           role := "implement" })]

/-- C2 instance: a sequential run whose order starts with the unknown name
`X` followed by the known agent `A`. -/
def seqXA : Except String (WorkflowResult × AsyncOrchestrator.CallLog) :=
  AsyncOrchestrator.execute_sequential agentsA "t" ["X", "A"] none

/-- C7 instance: a sequential run where `A` succeeds and the trailing
unknown name `X` fails. -/
def seqAX : Except String (WorkflowResult × AsyncOrchestrator.CallLog) :=
  AsyncOrchestrator.execute_sequential agentsA "t" ["A", "X"] none

/-- C7 witness instance: the workflow result of the one-agent run `["A"]`. -/
def wfA : WorkflowResult :=
  { success := true
    results := [{ agent_name := "A", role := "implement", success := true,
                  content := "done", iteration := 0 }]
    final_output := "done"
    total_iterations := 1 }

/-- C9 instance: the two-agent cycle `A.next_agent = B`, `B.next_agent = A`
with always-succeeding providers. -/
def agents9 : Agents :=
  [("A", { name := "A", provider := fun _ => .ok "outA", role := "implement",
           next_agent := some "B" }),
   ("B", { name := "B", provider := fun _ => .ok "outB", role := "review",
           next_agent := some "A" })]

/-! ## Theorems -/

theorem compactLoop_fst_eq (k : Nat) :
    ∀ (msgs : List Message) (L r : Nat),
      (SessionManager.compactLoop L k true msgs r).1
        = dropEarliestNonSystem ((L : Int) - k - r).toNat msgs := by
  intro msgs
  induction msgs with
  | nil => intro L r; simp [SessionManager.compactLoop, dropEarliestNonSystem]
  | cons m rest ih =>
    intro L r
    by_cases hsys : m.role == "system"
    · simp [SessionManager.compactLoop, dropEarliestNonSystem, hsys, ih]
    · simp only [SessionManager.compactLoop, dropEarliestNonSystem, hsys,
        Bool.false_and, Bool.false_eq_true, if_false]
      by_cases hlt : (L : Int) - (r : Int) - 1 < (k : Int)
      · have hd : ((L : Int) - k - r).toNat = 0 := by omega
        simp [hlt, hd, ih]
      · have hd : ((L : Int) - k - r).toNat
            = ((L : Int) - k - (r + 1 : Nat)).toNat + 1 := by
          push_cast
          omega
        simp [hlt, hd, ih]

theorem compact_session_noop (s : Session) (ks : Bool) (n : Nat) (summ : Bool)
    (now : String) (h : s.messages.length ≤ n) :
    SessionManager.compact_session s ks n summ now = s := by
  simp [SessionManager.compact_session, h]

/-- Claim C3, counterexample: with `keepLastN = 2` on a session holding one
system and three user messages, compaction (summary disabled, so the result
is exactly the retained history) keeps only the single most recent
non-system message, not the two the claim announces — the code's removal
quota counts system messages while the claim's does not. -/
theorem C3_counterexample :
    (SessionManager.compact_session sess0 true 2 false "T").messages
      ≠ specRetainedHistory 2 sess0.messages := by
  decide

/-- Claim C3 (amended): `compact_session` with `keepSystem = true` is the
identity when the message count is at most `keepLastN`; otherwise the
retained history (before any synthesized summary is inserted) is obtained
from the original order-preserving list by dropping the earliest
`messageCount − keepLastN` non-system messages — i.e. all system messages
are kept plus the most recent `keepLastN − #system` non-system messages,
not the most recent `keepLastN` of them. -/
theorem C3_compact_retained (s : Session) (n : Nat) (summ : Bool)
    (now : String) :
    (s.messages.length ≤ n →
      SessionManager.compact_session s true n summ now = s) ∧
    (SessionManager.compactLoop s.messages.length n true s.messages 0).1
      = dropEarliestNonSystem (s.messages.length - n) s.messages := by
  constructor
  · exact fun h => compact_session_noop s true n summ now h
  · have := compactLoop_fst_eq n s.messages s.messages.length 0
    have harith : ((s.messages.length : Int) - n - (0 : Nat)).toNat
        = s.messages.length - n := by omega
    rw [this, harith]

/-- Concrete witness for claim C3's amended theorem at `sess0` with
`keepLastN = 10`. -/
theorem C3_witness :
    sess0.messages.length ≤ 10 ∧
    SessionManager.compact_session sess0 true 10 true "T" = sess0 :=
  ⟨by decide, (C3_compact_retained sess0 10 true "T").1 (by decide)⟩

set_option maxRecDepth 4000 in
/-- Claim C6, counterexample: with `summarize = true` and `keepLastN = 2`,
the first compaction of `sess0` yields three messages (two system plus one
user, the synthesized summary having pushed the count past `keepLastN`), so
the second identical call compacts again and produces a different message
list. -/
theorem C6_counterexample :
    (SessionManager.compact_session
        (SessionManager.compact_session sess0 true 2 true "T") true 2 true
        "T2").messages
      ≠ (SessionManager.compact_session sess0 true 2 true "T").messages := by
  decide

/-- Claim C6 (amended): `compact_session` is the identity whenever the
message count is at most `keepLastN`; consequently a second identical call
is a no-op exactly when the first call's result has at most `keepLastN`
messages (e.g. with `summarize = false`) — not after every first
application, since an inserted summary raises the count to
`keepLastN + 1`. -/
theorem C6_compact_idempotent_when_small (s : Session) (ks : Bool) (n : Nat)
    (summ : Bool) (now now2 : String) :
    (s.messages.length ≤ n →
      SessionManager.compact_session s ks n summ now = s) ∧
    ((SessionManager.compact_session s ks n summ now).messages.length ≤ n →
      SessionManager.compact_session
          (SessionManager.compact_session s ks n summ now) ks n summ now2
        = SessionManager.compact_session s ks n summ now) := by
  exact ⟨fun h => compact_session_noop s ks n summ now h,
    fun h => compact_session_noop _ ks n summ now2 h⟩

/-- Concrete witness for claim C6's amended theorem: with
`summarize = false` the first compaction of `sess0` leaves two messages, and
the second call changes nothing. -/
theorem C6_witness :
    (SessionManager.compact_session sess0 true 2 false "T").messages.length ≤ 2 ∧
    SessionManager.compact_session
        (SessionManager.compact_session sess0 true 2 false "T") true 2 false "T2"
      = SessionManager.compact_session sess0 true 2 false "T" :=
  ⟨by decide,
   (C6_compact_idempotent_when_small sess0 true 2 false "T" "T2").2 (by decide)⟩

/-- Claim C10: `SessionManager.delete` removes the on-disk session file
whenever it exists (afterwards the id is never on disk), returns `true`
exactly when the id was present in the in-memory cache, and in particular
returns `false` for a session that exists only on disk — whose file it
nevertheless removes. -/
theorem C10_delete_spec (store : SessionManager.Store) (id : String) :
    ((SessionManager.delete store id).1 = true ↔ id ∈ store.cache) ∧
    (id ∉ (SessionManager.delete store id).2.disk) ∧
    (id ∈ store.disk → id ∉ store.cache →
      (SessionManager.delete store id).1 = false) := by
  have hfilter : ∀ l : List String, id ∉ l.filter (fun i => i ≠ id) := by
    intro l h
    rcases List.mem_filter.mp h with ⟨-, h2⟩
    simp at h2
  by_cases hd : id ∈ store.disk <;> by_cases hc : id ∈ store.cache <;>
    simp [SessionManager.delete, hd, hc, hfilter]

/-- Concrete witness for claim C10 at a store whose only session lives on
disk and was never cached: the file is removed yet `delete` returns
`false`. -/
theorem C10_witness :
    ((SessionManager.delete store0 "s1").1 = false) ∧
    ("s1" ∉ (SessionManager.delete store0 "s1").2.disk) :=
  ⟨(C10_delete_spec store0 "s1").2.2 (by decide) (by decide),
   (C10_delete_spec store0 "s1").2.1⟩

theorem firstIsSystem_append (l s : List Message)
    (h : firstIsSystem l = true) : firstIsSystem (l ++ s) = true := by
  cases l with
  | nil => simp [firstIsSystem] at h
  | cons m rest => simpa [firstIsSystem] using h

theorem executeToolsSync_firstIsSystem (tools : ToolExec)
    (cfg : AgentConfig) :
    ∀ (tcs : List ToolCall) (st : AgentState) (tr : RunTrace),
      firstIsSystem st.messages = true →
      firstIsSystem
        (CodingAgent.executeToolsSync tools cfg st tr tcs).1.messages
        = true := by
  intro tcs
  induction tcs with
  | nil => intro st tr h; simpa [CodingAgent.executeToolsSync] using h
  | cons tc rest ih =>
    intro st tr h
    unfold CodingAgent.executeToolsSync
    by_cases hcap : cfg.max_tool_calls_per_turn ≤ st.tool_calls_this_turn
    · simpa [hcap] using h
    · simp only [hcap, if_false]
      exact ih _ _ (firstIsSystem_append _ _ h)

theorem processTurn_firstIsSystem (provider : Provider) (tools : ToolExec)
    (cfg : AgentConfig) (st : AgentState) (tr : RunTrace)
    (h : firstIsSystem st.messages = true) :
    firstIsSystem
      (CodingAgent.processTurn provider tools cfg st tr).1.messages
      = true := by
  unfold CodingAgent.processTurn
  by_cases hempty : (provider st.messages).tool_calls.isEmpty
  · simpa [hempty] using firstIsSystem_append _ _ h
  · simp only [hempty, Bool.false_eq_true, if_false]
    exact executeToolsSync_firstIsSystem tools cfg _ _ _
      (firstIsSystem_append _ _ h)

theorem processLoop_firstIsSystem (provider : Provider) (tools : ToolExec)
    (cfg : AgentConfig) :
    ∀ (fuel : Nat) (st : AgentState) (tr : RunTrace),
      firstIsSystem st.messages = true →
      firstIsSystem
        (CodingAgent.processLoop provider tools cfg fuel st tr).1.messages
        = true := by
  intro fuel
  induction fuel with
  | zero => intro st tr h; simpa [CodingAgent.processLoop] using h
  | succ fuel ih =>
    intro st tr h
    unfold CodingAgent.processLoop
    by_cases hcond : !st.is_complete && st.iteration < cfg.max_iterations
    · simp only [hcond, if_true]
      exact ih _ _ (processTurn_firstIsSystem provider tools cfg _ _ h)
    · simpa [hcond] using h

theorem process_message_firstIsSystem (provider : Provider)
    (tools : ToolExec) (cfg : AgentConfig) (st : AgentState) (user : String)
    (h : firstIsSystem st.messages = true) :
    firstIsSystem
      (CodingAgent.process_message provider tools cfg st user).1.messages
      = true := by
  unfold CodingAgent.process_message
  exact processLoop_firstIsSystem provider tools cfg _ _ _
    (firstIsSystem_append _ _ h)

theorem compact_firstIsSystem (s : Session) (n : Nat) (summ : Bool)
    (now : String) (h : firstIsSystem s.messages = true) :
    firstIsSystem
      (SessionManager.compact_session s true n summ now).messages = true := by
  unfold SessionManager.compact_session
  by_cases hlen : s.messages.length ≤ n
  · simpa [hlen] using h
  · simp only [hlen, if_false]
    cases hm : s.messages with
    | nil => rw [hm] at h; simp [firstIsSystem] at h
    | cons m rest =>
      rw [hm] at h
      have hrole : (m.role == "system") = true := h
      simp only [SessionManager.compactLoop, hrole, Bool.true_and, if_true]
      split <;> simp [List.insertIdx, firstIsSystem, hrole]

/-- Claim C5: the first message of the conversation state is a system
message (the system prompt) after agent initialization and after every
operation — processing a task (which includes executing tools), executing
tools directly, reset, and session compaction with `keepSystem = true` —
provided it was a system message before the operation, which initialization
establishes. -/
theorem C5_first_message_always_system :
    (∀ cfg, firstIsSystem (CodingAgent.newAgent cfg).messages = true) ∧
    (∀ cfg st, firstIsSystem (CodingAgent.reset cfg st).messages = true) ∧
    (∀ provider tools cfg st user, firstIsSystem st.messages = true →
      firstIsSystem
        (CodingAgent.process_message provider tools cfg st user).1.messages
        = true) ∧
    (∀ tools cfg tcs st tr, firstIsSystem st.messages = true →
      firstIsSystem
        (CodingAgent.executeToolsSync tools cfg st tr tcs).1.messages
        = true) ∧
    (∀ s n summ now, firstIsSystem s.messages = true →
      firstIsSystem
        (SessionManager.compact_session s true n summ now).messages = true) := by
  refine ⟨?_, ?_, ?_, ?_, ?_⟩
  · intro cfg
    simp [CodingAgent.newAgent, CodingAgent.init_conversation, firstIsSystem]
  · intro cfg st
    simp [CodingAgent.reset, CodingAgent.init_conversation, firstIsSystem]
  · intro provider tools cfg st user h
    exact process_message_firstIsSystem provider tools cfg st user h
  · intro tools cfg tcs st tr h
    exact executeToolsSync_firstIsSystem tools cfg tcs st tr h
  · intro s n summ now h
    exact compact_firstIsSystem s n summ now h

/-- Concrete witness for claim C5: the invariant at a freshly initialized
agent and after a full task against `provider1`. -/
theorem C5_witness :
    firstIsSystem (CodingAgent.newAgent cfg1).messages = true ∧
    firstIsSystem run1.1.messages = true :=
  ⟨C5_first_message_always_system.1 cfg1,
   C5_first_message_always_system.2.2.1 provider1 tools1 cfg1
     (CodingAgent.newAgent cfg1) "hi" (by decide)⟩

theorem executeToolsSync_cap (tools : ToolExec) (cfg : AgentConfig) :
    ∀ (tcs : List ToolCall) (st : AgentState) (tr : RunTrace),
      st.tool_calls_this_turn ≤ cfg.max_tool_calls_per_turn →
      st.tool_calls_this_turn = tr.attempts.length →
      (∀ c ∈ tr.counterTrace, c ≤ cfg.max_tool_calls_per_turn) →
      ((CodingAgent.executeToolsSync tools cfg st tr tcs).1.tool_calls_this_turn
          ≤ cfg.max_tool_calls_per_turn) ∧
      ((CodingAgent.executeToolsSync tools cfg st tr tcs).1.tool_calls_this_turn
          = (CodingAgent.executeToolsSync
              tools cfg st tr tcs).2.1.attempts.length) ∧
      (∀ c ∈ (CodingAgent.executeToolsSync tools cfg st tr tcs).2.1.counterTrace,
          c ≤ cfg.max_tool_calls_per_turn) := by
  intro tcs
  induction tcs with
  | nil =>
    intro st tr h1 h2 h3
    exact ⟨by simpa [CodingAgent.executeToolsSync] using h1,
      by simpa [CodingAgent.executeToolsSync] using h2,
      by simpa [CodingAgent.executeToolsSync] using h3⟩
  | cons tc rest ih =>
    intro st tr h1 h2 h3
    unfold CodingAgent.executeToolsSync
    by_cases hcap : cfg.max_tool_calls_per_turn ≤ st.tool_calls_this_turn
    · simp only [hcap, if_true]
      exact ⟨h1, h2, h3⟩
    · simp only [hcap, if_false]
      refine ih _ _ ?_ ?_ ?_
      · dsimp only
        omega
      · dsimp only
        simp [h2]
      · dsimp only
        intro c hc
        rcases List.mem_append.mp hc with hold | hnew
        · exact h3 c hold
        · have hceq : c = st.tool_calls_this_turn + 1 := by simpa using hnew
          omega

theorem processTurn_cap (provider : Provider) (tools : ToolExec)
    (cfg : AgentConfig) (st : AgentState) (tr : RunTrace)
    (h1 : st.tool_calls_this_turn ≤ cfg.max_tool_calls_per_turn)
    (h2 : st.tool_calls_this_turn = tr.attempts.length)
    (h3 : ∀ c ∈ tr.counterTrace, c ≤ cfg.max_tool_calls_per_turn) :
    ((CodingAgent.processTurn provider tools cfg st tr).1.tool_calls_this_turn
        ≤ cfg.max_tool_calls_per_turn) ∧
    ((CodingAgent.processTurn provider tools cfg st tr).1.tool_calls_this_turn
        = (CodingAgent.processTurn provider tools cfg st tr).2.1.attempts.length) ∧
    (∀ c ∈ (CodingAgent.processTurn provider tools cfg st tr).2.1.counterTrace,
        c ≤ cfg.max_tool_calls_per_turn) := by
  unfold CodingAgent.processTurn
  by_cases hempty : (provider st.messages).tool_calls.isEmpty
  · simp only [hempty, if_true]
    exact ⟨h1, by simpa using h2, by simpa using h3⟩
  · simp only [hempty, Bool.false_eq_true, if_false]
    have := executeToolsSync_cap tools cfg (provider st.messages).tool_calls
      { st with messages := st.messages ++ [{
          role := "assistant"
          content := (provider st.messages).content
          tool_calls := some ((provider st.messages).tool_calls.map
            (fun tc => (tc.id, tc.name, tc.arguments))) }] }
      { tr with providerCalls := tr.providerCalls + 1 }
      h1 (by simpa using h2) (by simpa using h3)
    exact ⟨this.1, by simpa using this.2.1, by simpa using this.2.2⟩

theorem processLoop_cap (provider : Provider) (tools : ToolExec)
    (cfg : AgentConfig) :
    ∀ (fuel : Nat) (st : AgentState) (tr : RunTrace),
      st.tool_calls_this_turn ≤ cfg.max_tool_calls_per_turn →
      st.tool_calls_this_turn = tr.attempts.length →
      (∀ c ∈ tr.counterTrace, c ≤ cfg.max_tool_calls_per_turn) →
      ((CodingAgent.processLoop provider tools cfg fuel st tr).1.tool_calls_this_turn
          ≤ cfg.max_tool_calls_per_turn) ∧
      ((CodingAgent.processLoop provider tools cfg fuel st tr).1.tool_calls_this_turn
          = (CodingAgent.processLoop
              provider tools cfg fuel st tr).2.attempts.length) ∧
      (∀ c ∈ (CodingAgent.processLoop provider tools cfg fuel st tr).2.counterTrace,
          c ≤ cfg.max_tool_calls_per_turn) := by
  intro fuel
  induction fuel with
  | zero =>
    intro st tr h1 h2 h3
    exact ⟨by simpa [CodingAgent.processLoop] using h1,
      by simpa [CodingAgent.processLoop] using h2,
      by simpa [CodingAgent.processLoop] using h3⟩
  | succ fuel ih =>
    intro st tr h1 h2 h3
    unfold CodingAgent.processLoop
    by_cases hcond : !st.is_complete && st.iteration < cfg.max_iterations
    · simp only [hcond, if_true]
      have hturn := processTurn_cap provider tools cfg
        { st with iteration := st.iteration + 1 } tr h1 h2 h3
      exact ih _ _ hturn.1 hturn.2.1 hturn.2.2
    · simp only [hcond, Bool.false_eq_true, if_false]
      exact ⟨h1, h2, h3⟩

/-- Claim C4: over a whole task, `tool_calls_this_turn` never exceeds
`max_tool_calls_per_turn` — at the end, at every recorded intermediate
value (the counter changes only at increments, all of which are recorded in
the trace), and the number of attempted tool invocations across all
provider round-trips equals the final counter, hence also never exceeds the
cap. -/
theorem C4_tool_cap_invariant (provider : Provider) (tools : ToolExec)
    (cfg : AgentConfig) (st : AgentState) (user : String) :
    ((CodingAgent.process_message
        provider tools cfg st user).1.tool_calls_this_turn
      ≤ cfg.max_tool_calls_per_turn) ∧
    ((CodingAgent.process_message provider tools cfg st user).2.attempts.length
      = (CodingAgent.process_message
          provider tools cfg st user).1.tool_calls_this_turn) ∧
    (∀ c ∈ (CodingAgent.process_message
        provider tools cfg st user).2.counterTrace,
      c ≤ cfg.max_tool_calls_per_turn) := by
  unfold CodingAgent.process_message
  have := processLoop_cap provider tools cfg (cfg.max_iterations + 1)
    { st with
      messages := st.messages ++ [{ role := "user", content := user }]
      iteration := 0
      tool_calls_this_turn := 0
      is_complete := false }
    {} (Nat.zero_le _) rfl (by intro c hc; simp at hc)
  exact ⟨this.1, this.2.1.symm, this.2.2⟩

/-- Concrete witness for claim C4 at the `provider1`/`tools1`/`cfg1`
scenario, including an instantiation of the intermediate-counter bound at
the recorded value 1. -/
theorem C4_witness :
    run1.1.tool_calls_this_turn ≤ cfg1.max_tool_calls_per_turn ∧
    (1 : Nat) ≤ cfg1.max_tool_calls_per_turn :=
  ⟨(C4_tool_cap_invariant provider1 tools1 cfg1
      (CodingAgent.newAgent cfg1) "hi").1,
   (C4_tool_cap_invariant provider1 tools1 cfg1
      (CodingAgent.newAgent cfg1) "hi").2.2 1 (by decide)⟩

/-- Claim C1, counterexample: with `max_tool_calls_per_turn = 2` and a
provider that always requests three tool calls, exactly two tools execute
and the cap marker is emitted — but the task does not stop: the loop keeps
requesting completions, 20 in total (`max_iterations`), not 1 as "without
requesting another completion" demands. -/
theorem C1_counterexample :
    run1.2.attempts.length = 2 ∧
    "[Max tool calls reached]" ∈ run1.2.outputs ∧
    run1.2.providerCalls = 20 := by
  decide

/-- Claim C1 (amended): in the cap scenario exactly two tools execute (the
first two requested), the "[Max tool calls reached]" marker is emitted in
place of the remaining call, and no further tool ever executes — but the
task is not stopped: nothing sets `is_complete`, so completions keep being
requested until `max_iterations` is exhausted. -/
theorem C1_cap_behavior :
    run1.2.attempts = [{ id := "1", name := "t1", arguments := [] },
                       { id := "2", name := "t2", arguments := [] }] ∧
    "[Max tool calls reached]" ∈ run1.2.outputs ∧
    run1.2.providerCalls = cfg1.max_iterations ∧
    run1.1.tool_calls_this_turn = 2 ∧
    run1.1.is_complete = false := by
  decide

/-- Claim C2, counterexample: in a sequential run over `["X", "A"]` where
`X` is unknown and `A` is registered, `X` yields a failed result without a
provider call, yet `A` — after it in the list — is still invoked (one
provider call is logged for it and its result succeeds), so the run does
not stop at the unknown name. -/
theorem C2_counterexample :
    (seqXA.toOption.map
        (fun p => p.1.results.map (fun r => (r.agent_name, r.success))))
      = some [("X", false), ("A", true)] ∧
    (seqXA.toOption.map (fun p => p.2)) = some [("A", "t")] := by
  decide

/-- Claim C2 (amended): an unknown agent name at the head of the remaining
order yields a failed Execution Result with error "Agent not found: …" and
contributes no provider call (the call log is exactly the continuation's),
and the run continues with the remaining agents on unchanged input and
context — it does not stop at the unknown name. -/
theorem C2_unknown_agent_continues (agents : Agents) (i : Nat) (name : String)
    (rest : List String) (input : String) (ctx : AsyncOrchestrator.SeqCtx)
    (h : lookupAgent agents name = none) :
    AsyncOrchestrator.seqLoop agents i (name :: rest) input ctx
      = (AsyncOrchestrator.seqLoop agents (i + 1) rest input ctx).map
          (fun p =>
            ({ agent_name := name, role := "unknown", success := false,
               content := "",
               error := some ("Agent not found: " ++ name) } :: p.1, p.2)) := by
  simp [AsyncOrchestrator.seqLoop, h]

/-- Concrete witness for claim C2's amended theorem at the unknown name
`X` followed by the known agent `A`. -/
theorem C2_witness :
    AsyncOrchestrator.seqLoop agentsA 0 ["X", "A"] "t" []
      = (AsyncOrchestrator.seqLoop agentsA 1 ["A"] "t" []).map
          (fun p =>
            ({ agent_name := "X", role := "unknown", success := false,
               content := "",
               error := some ("Agent not found: " ++ "X") } :: p.1, p.2)) :=
  C2_unknown_agent_continues agentsA 0 "X" ["A"] "t" [] rfl

theorem filter_getLast?_eq {α} (p : α → Bool) (l : List α) (r : α)
    (h : l.getLast? = some r) (hp : p r = true) :
    (l.filter p).getLast? = some r := by
  induction l using List.reverseRecOn with
  | nil => simp at h
  | append_singleton ys a ih =>
    have ha : a = r := by simpa [List.getLast?_concat] using h
    subst ha
    simp [List.filter_append, hp, List.getLast?_concat]

/-- Claim C7, counterexample: in the sequential run over `["A", "X"]`,
agent `A` succeeds with content "done" (the last successful agent's
content), but because the run ends with the failed unknown agent `X`, the
workflow's `final_output` is the empty string, not "done". -/
theorem C7_counterexample :
    (seqAX.toOption.map (fun p => p.1.final_output)) = some "" ∧
    (seqAX.toOption.map (fun p => lastSuccessContent p.1.results))
      = some (some "done") := by
  decide

/-- Claim C7 (amended): for every sequential run that returns a workflow
result, when the run's last Execution Result is successful the
`final_output` equals the last successful agent's content (they coincide);
when the last result is a failure the `final_output` is the empty string —
even when earlier agents succeeded. -/
theorem C7_final_output (agents : Agents) (task : String)
    (order : List String) (context : Option AsyncOrchestrator.SeqCtx)
    (wf : WorkflowResult) (log : AsyncOrchestrator.CallLog)
    (r : ExecutionResult)
    (h : AsyncOrchestrator.execute_sequential agents task order context
          = .ok (wf, log))
    (hlast : wf.results.getLast? = some r) :
    (r.success = true → lastSuccessContent wf.results = some wf.final_output) ∧
    (r.success = false → wf.final_output = "") := by
  unfold AsyncOrchestrator.execute_sequential at h
  cases hseq : AsyncOrchestrator.seqLoop agents 0 order task (context.getD [])
    with
  | error e => rw [hseq] at h; simp [Except.map] at h
  | ok p =>
    rw [hseq] at h
    simp only [Except.map, Except.ok.injEq, Prod.mk.injEq] at h
    obtain ⟨hwf, -⟩ := h
    subst hwf
    have hres : (AsyncOrchestrator.seqResult p.1).results = p.1 := rfl
    rw [hres] at hlast
    have hfo : (AsyncOrchestrator.seqResult p.1).final_output
        = (if r.success then r.content else "") := by
      unfold AsyncOrchestrator.seqResult
      simp [hlast]
    constructor
    · intro hs
      rw [hres]
      have hfl := filter_getLast?_eq (fun x => x.success) p.1 r hlast hs
      simp [lastSuccessContent, hfl, hfo, hs]
    · intro hs
      simp [hfo, hs]

/-- Concrete witness for claim C7's amended theorem at the one-agent run
`["A"]`, whose last result succeeds. -/
theorem C7_witness :
    lastSuccessContent wfA.results = some wfA.final_output :=
  (C7_final_output agentsA "t" ["A"] none wfA [("A", "t")]
      { agent_name := "A", role := "implement", success := true,
        content := "done", iteration := 0 }
      rfl rfl).1 rfl

theorem runAgent_name (agents : Agents) (task name : String) :
    (AsyncOrchestrator.runAgent agents task name).agent_name = name := by
  unfold AsyncOrchestrator.runAgent
  cases hl : lookupAgent agents name with
  | none => simp [hl]
  | some agent =>
    simp only [hl]
    cases hp : agent.provider (formatTemplate agent.prompt_template task "" "")
      <;> simp [hp]

/-- Claim C8: parallel orchestration returns exactly one Execution Result
per input agent name, in the same order as the input list, for every agent
mapping, task, name list and merge strategy — regardless of which agents
fail or are unknown. -/
theorem C8_parallel_shape (agents : Agents) (task : String)
    (names : List String) (strat : String) :
    ((AsyncOrchestrator.execute_parallel agents task names strat).results.length
        = names.length) ∧
    ((AsyncOrchestrator.execute_parallel agents task names strat).results.map
        (fun r => r.agent_name) = names) := by
  unfold AsyncOrchestrator.execute_parallel
  refine ⟨by simp, ?_⟩
  simp only [List.map_map]
  have : ((fun r : ExecutionResult => r.agent_name) ∘
      AsyncOrchestrator.runAgent agents task) = fun n => n := by
    funext n
    exact runAgent_name agents task n
  simp [this]

/-- Claim C9: continuous orchestration on the two-agent cycle
`A.next_agent = B`, `B.next_agent = A` with orchestrator
`max_iterations = 3`, always-succeeding providers and a never-matching stop
condition produces exactly four Execution Results carrying iteration
indices 0, 1, 2, 3 (alternating A, B, A, B), and the consumer loop then
terminates on its own with the queue drained, because an item with
iteration `i` enqueues a successor only when `i < max_iterations`. -/
theorem C9_continuous_cycle :
    (AsyncOrchestrator.execute_continuous agents9 3 "t0" (fun _ => false)
        20).map
      (fun p => (p.1.results.map (fun r => (r.agent_name, r.iteration)),
                 p.1.total_iterations, p.1.success, p.2))
      = some ([("A", 0), ("B", 1), ("A", 2), ("B", 3)], 4, true, true) := by
  decide
